import Mathlib

/-!
Shallow embedding of the VRF meta-plugin core (`plugins/meta/vrf/vrf.go`).

Kernel interaction (the `netlink`/`netlinksafe` calls) is modelled by an
explicit environment supplying the kernel's reply to each call, and the
functions return, besides their result, the ordered trace of kernel
mutations they performed.  Pure helpers (`findFreeRoutingTableID`,
`getGlobalAddresses`, the route filters) are translated directly.
-/

namespace VRFPlugin

/-! ## Data model -/

/-- netlink constant `SCOPE_UNIVERSE` (Linux `RT_SCOPE_UNIVERSE = 0`). -/
def SCOPE_UNIVERSE : Nat := 0

/-- netlink constant `FAMILY_V6` (`AF_INET6 = 10`). -/
def FAMILY_V6 : Nat := 10

/-- netlink constant `FAMILY_ALL` (= 0, no family filtering). -/
def FAMILY_ALL : Nat := 0

/-- `net.IPNet`: an IP (list of bytes) together with a mask (list of bytes). -/
structure IPNet where
  ip : List Nat
  mask : List Nat
  deriving DecidableEq, Repr

/-- The bits of a mask, most-significant bit of each byte first
(model of iterating `net.IPMask` bytes). -/
def maskBits (mask : List Nat) : List Bool :=
  mask.flatMap (fun b => (List.range 8).map (fun i => b.testBit (7 - i)))

/-- Model of Go `net.IPMask.Size`: the number of leading one bits when the
mask is canonical (ones followed by zeros), and `0` otherwise. -/
def maskSize (mask : List Nat) : Nat :=
  let bits := maskBits mask
  let ones := (bits.takeWhile (fun b => b)).length
  if (bits.drop ones).all (fun b => !b) then ones else 0

/-- Model of `net.IPNet.String`: destination/prefix-length rendering. -/
def IPNet.render (n : IPNet) : String :=
  String.intercalate "." (n.ip.map toString) ++ "/" ++ toString (maskSize n.mask)

/-- `netlink.Addr`: an `IPNet` plus the scope tag; `family` models which
address family the kernel reports the address under (used by the
`AddrList(link, family)` filter).  Extra Go fields (label, flags, ...) that
the plugin never reads are not represented. -/
structure Addr where
  ipnet : IPNet
  scope : Nat
  family : Nat
  deriving DecidableEq, Repr

/-- Model of `netlink.Addr.Equal`: same IP and same mask size
(scope, flags, labels are ignored by the Go comparison). -/
def Addr.Equal (a x : Addr) : Bool :=
  a.ipnet.ip == x.ipnet.ip && maskSize a.ipnet.mask == maskSize x.ipnet.mask

/-- Model of `netlink.Addr`'s string rendering (its `IPNet` part). -/
def Addr.render (a : Addr) : String := a.ipnet.render

/-- `netlink.Route`, restricted to the fields the plugin reads or writes
(`LinkIndex`, `Scope`, `Src`, `Dst`, `Gw`, `Table`, `Priority`). -/
structure Route where
  linkIndex : Nat
  scope : Nat
  src : Option (List Nat)
  dst : Option IPNet
  gw : Option (List Nat)
  table : Int
  priority : Int
  deriving DecidableEq, Repr

/-- Model of a route's string rendering. -/
def Route.render (r : Route) : String :=
  (match r.dst with
   | none => "default"
   | some d => d.render) ++ " table " ++ toString r.table

/-- `netlink.LinkAttrs`, restricted to the fields the plugin uses. -/
structure LinkAttrs where
  name : String
  index : Nat
  masterIndex : Nat
  deriving DecidableEq, Repr

/-- A kernel link: either a VRF device (carrying its routing table ID,
Go `netlink.Vrf`) or any other kind of device.  This is the tagged union
behind Go's `link.(*netlink.Vrf)` downcast. -/
inductive Link where
  | vrf (attrs : LinkAttrs) (table : Nat)
  | device (attrs : LinkAttrs)
  deriving DecidableEq, Repr

/-- `link.Attrs()`. -/
def Link.attrs : Link → LinkAttrs
  | .vrf a _ => a
  | .device a => a

/-- The `netlink.Vrf` value the plugin builds and returns: link attributes
plus the routing table ID. -/
structure Vrf where
  name : String
  index : Nat
  table : Nat
  deriving DecidableEq, Repr

/-! ## Route list filtering

Model of `netlink.RouteListFiltered`: the kernel returns the routes of its
table view that match the filter route on the fields selected by the
filter mask (`RT_FILTER_OIF`, `RT_FILTER_TABLE`, `RT_FILTER_DST`,
`RT_FILTER_SCOPE`).  The plugin always passes `FAMILY_ALL`, so no family
filtering is modelled. -/

/-- Which `RT_FILTER_*` bits are set. -/
structure RouteFilterMask where
  oif : Bool
  table : Bool
  dst : Bool
  scope : Bool
  deriving DecidableEq, Repr

/-- Does route `r` match filter `flt` on the masked fields? -/
def routeMatches (flt : Route) (m : RouteFilterMask) (r : Route) : Bool :=
  (!m.oif || r.linkIndex == flt.linkIndex) &&
  (!m.table || r.table == flt.table) &&
  (!m.dst || r.dst == flt.dst) &&
  (!m.scope || r.scope == flt.scope)

/-- Model of kernel `RouteListFiltered` over a kernel route list. -/
def routeListFiltered (routes : List Route) (flt : Route) (m : RouteFilterMask) :
    List Route :=
  routes.filter (routeMatches flt m)

/-! ## findFreeRoutingTableID -/

/-- The table IDs of the VRF devices in a link list (Go builds the
`takenTables` set by downcasting each link to `*netlink.Vrf`). -/
def takenTables (links : List Link) : List Nat :=
  links.filterMap (fun l => match l with
    | .vrf _ t => some t
    | .device _ => none)

/-- One step of the `for res := uint32(1); res < math.MaxUint32; res++`
scan: `fuel` is the number of loop iterations still allowed
(`res` ranges over `1 .. 2^32 - 2`). -/
def findFreeAux (taken : List Nat) : Nat → Nat → Except String Nat
  | _, 0 => .error "findFreeRoutingTableID: Failed to find an available routing id"
  | res, fuel + 1 =>
    if res ∈ taken then findFreeAux taken (res + 1) fuel else .ok res

/-- `findFreeRoutingTableID`: smallest table ID in `1 .. 2^32 - 2` not taken
by an existing VRF device. -/
def findFreeRoutingTableID (links : List Link) : Except String Nat :=
  findFreeAux (takenTables links) 1 (2 ^ 32 - 2)

/-! ## Kernel environment and mutation traces

Each netlink call that can fail is answered by the environment.  The list
calls are answered with the kernel's raw view at the time of the call (the
address lists before and after the master-set differ because enslavement
can drop addresses); the convergence-poll replies are indexed by the
attempt number because the kernel installs routes asynchronously.
Mutating calls that succeed are recorded in an ordered trace. -/

/-- A kernel mutation or query performed by `addInterface`. -/
inductive Action where
  | setMaster (linkIndex : Nat) (vrfIndex : Nat)
  | addrAdd (a : Addr)
  | routeQuery (dst : IPNet) (table : Int) (linkIndex : Nat)
  | sleep (ms : Nat)
  | routeReplace (r : Route)
  deriving DecidableEq, Repr

/-- The kernel's replies to the netlink calls `addInterface` makes. -/
structure NetEnv where
  /-- `LinkByName` -/
  linkByName : String → Except String Link
  /-- `LinkByIndex` (used only to name an existing master) -/
  linkByIndex : Nat → Except String Link
  /-- full address list of the interface before the master is set -/
  addrsBefore : Except String (List Addr)
  /-- the kernel's route table view for the pre-enslavement snapshot -/
  kernelRoutes : Except String (List Route)
  /-- result of `LinkSetMaster` -/
  setMasterResult : Except String Unit
  /-- full address list of the interface after the master is set -/
  addrsAfter : Except String (List Addr)
  /-- result of `AddrAdd` for a given address -/
  addrAddResult : Addr → Except String Unit
  /-- reply to the convergence poll for a restored address at a given
  attempt number (the matching routes the kernel reports) -/
  routeQueryResult : Addr → Nat → Except String (List Route)
  /-- result of `RouteReplace` for a given route -/
  routeReplaceResult : Route → Except String Unit

/-- `getGlobalAddresses(link, family)`: `AddrList` (modelled as the raw
kernel list filtered to the requested family) then keep only
`SCOPE_UNIVERSE` addresses. -/
def getGlobalAddresses (raw : Except String (List Addr)) (linkName : String)
    (family : Nat) : Except String (List Addr) :=
  match raw.map (·.filter (fun a => family == FAMILY_ALL || a.family == family)) with
  | .error e =>
    .error ("failed getting list of IP addresses for " ++ linkName ++ ": " ++ e)
  | .ok addresses => .ok (addresses.filter (fun a => a.scope == SCOPE_UNIVERSE))

/-- The single-host (/128) destination prefix used by the convergence poll:
the restored address with a 16-byte all-ones mask. -/
def hostPrefix (toFind : Addr) : IPNet :=
  { ip := toFind.ipnet.ip, mask := List.replicate 16 255 }

/-- The query-failure message of the convergence loop. -/
def queryErrMsg (intf : String) (table : Nat) (dstStr e : String) : String :=
  "failed getting routes for " ++ intf ++ " table " ++ toString table ++
    " for dst " ++ dstStr ++ ": " ++ e

/-- The timeout message of the convergence loop. -/
def timeoutMsg (intf : String) (table : Nat) (dstStr : String) : String :=
  "failed getting local/host addresses for " ++ intf ++ " in table " ++
    toString table ++ " with dst " ++ dstStr

/-- The inner `for retryCount := 0; retryCount <= maxRetries; retryCount++`
loop of `addInterface`.  `fuel` is `maxRetries - retryCount`, so `fuel = 0`
exactly when `retryCount == maxRetries`.  Each attempt records its route
query; a sleep of `10 * 2^retryCount` ms is recorded before the next
attempt. -/
def convWaitAux (resp : Nat → Except String (List Route)) (qa : Action)
    (intf : String) (table : Nat) (dstStr : String) :
    Nat → Nat → List Action × Except String Unit
  | retryCount, fuel =>
    match resp retryCount with
    | .error e => ([qa], .error (queryErrMsg intf table dstStr e))
    | .ok routesVRFTable =>
      if routesVRFTable.length ≥ 1 then ([qa], .ok ())
      else
        match fuel with
        | 0 => ([qa], .error (timeoutMsg intf table dstStr))
        | fuel' + 1 =>
          let rest := convWaitAux resp qa intf table dstStr (retryCount + 1) fuel'
          (qa :: .sleep (10 * 2 ^ retryCount) :: rest.1, rest.2)

/-- The convergence wait for one restored address: poll for a host route to
`toFind` in the VRF's table on the interface, with `maxRetries = 8` and
`backoffBase = 10` ms. -/
def convergenceWait (env : NetEnv) (i : Link) (vrf : Vrf) (intf : String)
    (toFind : Addr) : List Action × Except String Unit :=
  convWaitAux (env.routeQueryResult toFind)
    (.routeQuery (hostPrefix toFind) (Int.ofNat vrf.table) i.attrs.index)
    intf vrf.table toFind.ipnet.render 0 8

/-- The `CONTINUE:`-labelled loop of `addInterface`: for each address of the
before snapshot that no address of the after snapshot `Equal`s, re-add it
and wait for convergence; the first failure aborts. -/
def restoreLoop (env : NetEnv) (i : Link) (vrf : Vrf) (intf : String)
    (afterAddresses : List Addr) : List Addr → List Action × Except String Unit
  | [] => ([], .ok ())
  | toFind :: rest =>
    if afterAddresses.any (fun current => toFind.Equal current) then
      restoreLoop env i vrf intf afterAddresses rest
    else
      match env.addrAddResult toFind with
      | .error e =>
        ([], .error ("could not restore address " ++ toFind.render ++ " to " ++
          intf ++ " @ " ++ vrf.name ++ ": " ++ e))
      | .ok _ =>
        match convergenceWait env i vrf intf toFind with
        | (wtr, .error e) => (.addrAdd toFind :: wtr, .error e)
        | (wtr, .ok _) =>
          match restoreLoop env i vrf intf afterAddresses rest with
          | (rtr, res) => (.addrAdd toFind :: wtr ++ rtr, res)

/-- The final replay loop of `addInterface`: each saved route is installed
with its table rewritten to the VRF's; the first failure aborts. -/
def replayLoop (env : NetEnv) (table : Int) :
    List Route → List Action × Except String Unit
  | [] => ([], .ok ())
  | route :: rest =>
    match env.routeReplaceResult { route with table := table } with
    | .error e =>
      ([], .error ("could not add route '" ++
        Route.render { route with table := table } ++ "': " ++ e))
    | .ok _ =>
      match replayLoop env table rest with
      | (ttr, res) => (.routeReplace { route with table := table } :: ttr, res)

/-- `addInterface(vrf, intf)`: the enslave-and-repair protocol.  Returns
the ordered trace of kernel mutations performed together with the Go
function's result. -/
def addInterface (env : NetEnv) (vrf : Vrf) (intf : String) :
    List Action × Except String Unit :=
  match env.linkByName intf with
  | .error _ => ([], .error ("could not get link by name " ++ intf))
  | .ok i =>
    if i.attrs.masterIndex != 0 then
      match env.linkByIndex i.attrs.masterIndex with
      | .error e =>
        ([], .error ("interface " ++ intf ++
          " has already a master set, could not retrieve the name: " ++ e))
      | .ok master =>
        ([], .error ("interface " ++ intf ++ " has already a master set: " ++
          master.attrs.name))
    else
      match getGlobalAddresses env.addrsBefore i.attrs.name FAMILY_V6 with
      | .error e =>
        ([], .error ("failed getting global ipv6 addresses before slaving interface: " ++ e))
      | .ok beforeAddresses =>
        match env.kernelRoutes with
        | .error _ => ([], .error ("failed getting all routes for " ++ intf))
        | .ok kroutes =>
          let r := routeListFiltered kroutes
            { linkIndex := i.attrs.index, scope := SCOPE_UNIVERSE,
              src := none, dst := none, gw := none, table := 0, priority := 0 }
            { oif := true, table := false, dst := false, scope := true }
          let globalRoutes := r.filter (fun route => route.src ≠ none)
          match env.setMasterResult with
          | .error e =>
            ([], .error ("could not set vrf " ++ vrf.name ++ " as master of " ++
              intf ++ ": " ++ e))
          | .ok _ =>
            let sm : Action := .setMaster i.attrs.index vrf.index
            match getGlobalAddresses env.addrsAfter i.attrs.name FAMILY_V6 with
            | .error e =>
              ([sm], .error ("failed getting global ipv6 addresses after slaving interface: " ++ e))
            | .ok afterAddresses =>
              match restoreLoop env i vrf intf afterAddresses beforeAddresses with
              | (rtr, .error e) => (sm :: rtr, .error e)
              | (rtr, .ok _) =>
                match replayLoop env (Int.ofNat vrf.table) globalRoutes with
                | (ptr, res) => (sm :: rtr ++ ptr, res)

/-! ## findVRF, createVRF, resetMaster -/

/-- `findVRF(name)`: look the link up by name and downcast it to a VRF. -/
def findVRF (lookup : String → Except String Link) (name : String) :
    Except String Vrf :=
  match lookup name with
  | .error e => .error e
  | .ok link =>
    match link with
    | .vrf attrs t => .ok { name := attrs.name, index := attrs.index, table := t }
    | .device _ => .error ("Netlink " ++ name ++ " is not a VRF")

/-- The kernel's replies to the calls `createVRF` makes. -/
structure CreateEnv where
  /-- `LinkList` -/
  linkList : Except String (List Link)
  /-- result of `LinkAdd` -/
  linkAdd : Vrf → Except String Unit
  /-- result of `LinkSetUp` -/
  linkSetUp : Vrf → Except String Unit

/-- `createVRF(name, tableID)`: allocate a table when `tableID == 0`, build
the VRF descriptor, add it and bring it up. -/
def createVRF (env : CreateEnv) (name : String) (tableID : Nat) :
    Except String Vrf :=
  match env.linkList with
  | .error e => .error ("createVRF: Failed to find links " ++ e)
  | .ok links =>
    let tid : Except String Nat :=
      if tableID == 0 then findFreeRoutingTableID links else .ok tableID
    match tid with
    | .error e => .error e
    | .ok t =>
      let vrf : Vrf := { name := name, index := 0, table := t }
      match env.linkAdd vrf with
      | .error e => .error ("could not add VRF " ++ name ++ ": " ++ e)
      | .ok _ =>
        match env.linkSetUp vrf with
        | .error e => .error ("could not set link up for VRF " ++ name ++ ": " ++ e)
        | .ok _ => .ok vrf

/-- A kernel call attempted by `resetMaster` (recorded even when it fails,
so that absence of retries is visible in the trace). -/
inductive ResetCall where
  | lookup (name : String)
  | setNoMaster (linkIndex : Nat)
  deriving DecidableEq, Repr

/-- `resetMaster(interfaceName)`: look the interface up and clear its
master relation. -/
def resetMaster (lookup : String → Except String Link)
    (setNoMaster : Nat → Except String Unit) (interfaceName : String) :
    List ResetCall × Except String Unit :=
  match lookup interfaceName with
  | .error _ =>
    ([.lookup interfaceName],
      .error ("resetMaster: could not get link by name " ++ interfaceName))
  | .ok intf =>
    match setNoMaster intf.attrs.index with
    | .error _ =>
      ([.lookup interfaceName, .setNoMaster intf.attrs.index],
        .error ("resetMaster: could reset master to " ++ interfaceName))
    | .ok _ => ([.lookup interfaceName, .setNoMaster intf.attrs.index], .ok ())

/-! ## Trace observations and kernel-state interpretation -/

/-- The addresses added by a trace, in order. -/
def addrAddsOf (tr : List Action) : List Addr :=
  tr.filterMap (fun a => match a with | .addrAdd x => some x | _ => none)

/-- The routes replaced by a trace, in order. -/
def replacesOf (tr : List Action) : List Route :=
  tr.filterMap (fun a => match a with | .routeReplace r => some r | _ => none)

/-- The route queries issued by a trace, in order. -/
def queriesOf (tr : List Action) : List (IPNet × Int × Nat) :=
  tr.filterMap (fun a => match a with
    | .routeQuery d t l => some (d, t, l)
    | _ => none)

/-- The sleeps performed by a trace, in order (milliseconds). -/
def sleepsOf (tr : List Action) : List Nat :=
  tr.filterMap (fun a => match a with | .sleep ms => some ms | _ => none)

/-- The identifying key of a route for `RouteReplace` (destination and
table): a replace installs its route and evicts any route with the same
key. -/
def routeKey (r : Route) : Option IPNet × Int := (r.dst, r.table)

/-- Abstract kernel state used to interpret a trace: the interface's master
index, its address list and the route table view. -/
structure KState where
  master : Nat
  addrs : List Addr
  routes : List Route
  deriving DecidableEq, Repr

/-- Interpret one action against the kernel state (queries and sleeps do
not mutate). -/
def applyAction (s : KState) : Action → KState
  | .setMaster _ vrfIndex => { s with master := vrfIndex }
  | .addrAdd a => { s with addrs := s.addrs ++ [a] }
  | .routeReplace r =>
    { s with routes := s.routes.filter (fun r0 => routeKey r0 ≠ routeKey r) ++ [r] }
  | .routeQuery _ _ _ => s
  | .sleep _ => s

/-- Interpret a trace left to right. -/
def applyTrace (s : KState) (tr : List Action) : KState :=
  tr.foldl applyAction s

/-! ## Allocator lemmas -/

theorem findFreeAux_ok (taken : List Nat) (m : Nat) :
    ∀ fuel res, res ≤ m → m < res + fuel → m ∉ taken →
      (∀ k, res ≤ k → k < m → k ∈ taken) →
      findFreeAux taken res fuel = .ok m := by
  intro fuel
  induction fuel with
  | zero => intro res h1 h2 _ _; omega
  | succ fuel ih =>
    intro res h1 h2 h3 h4
    simp only [findFreeAux]
    by_cases hc : res ∈ taken
    · have hne : res ≠ m := fun h => h3 (h ▸ hc)
      rw [if_pos hc]
      exact ih (res + 1) (by omega) (by omega) h3 (fun k hk1 hk2 => h4 k (by omega) hk2)
    · have heq : res = m := by
        by_contra hne
        exact hc (h4 res le_rfl (by omega))
      rw [if_neg hc, heq]

theorem findFreeAux_error (taken : List Nat) :
    ∀ fuel res, (∀ k, res ≤ k → k < res + fuel → k ∈ taken) →
      findFreeAux taken res fuel =
        .error "findFreeRoutingTableID: Failed to find an available routing id" := by
  intro fuel
  induction fuel with
  | zero => intro res _; rfl
  | succ fuel ih =>
    intro res h
    simp only [findFreeAux]
    rw [if_pos (h res le_rfl (by omega))]
    exact ih (res + 1) (fun k hk1 hk2 => h k (by omega) (by omega))

theorem findFreeAux_error_taken (taken : List Nat) :
    ∀ fuel res e, findFreeAux taken res fuel = .error e →
      ∀ k, res ≤ k → k < res + fuel → k ∈ taken := by
  intro fuel
  induction fuel with
  | zero => intro res e _ k h1 h2; omega
  | succ fuel ih =>
    intro res e h k h1 h2
    simp only [findFreeAux] at h
    by_cases hc : res ∈ taken
    · rw [if_pos hc] at h
      rcases Nat.eq_or_lt_of_le h1 with heq | hlt
      · exact heq ▸ hc
      · exact ih (res + 1) e h k hlt (by omega)
    · rw [if_neg hc] at h
      exact absurd h (by simp)

theorem findFreeAux_ok_inv (taken : List Nat) :
    ∀ fuel res m, findFreeAux taken res fuel = .ok m →
      res ≤ m ∧ m < res + fuel ∧ m ∉ taken := by
  intro fuel
  induction fuel with
  | zero => intro res m h; exact absurd h (by simp [findFreeAux])
  | succ fuel ih =>
    intro res m h
    simp only [findFreeAux] at h
    by_cases hc : res ∈ taken
    · rw [if_pos hc] at h
      have := ih (res + 1) m h
      exact ⟨by omega, by omega, this.2.2⟩
    · rw [if_neg hc] at h
      have heq : res = m := by simpa using h
      exact ⟨by omega, by omega, heq ▸ hc⟩

theorem takenTables_filter (links : List Link) :
    takenTables (links.filter (fun l => match l with
      | .vrf _ _ => true
      | .device _ => false)) = takenTables links := by
  induction links with
  | nil => rfl
  | cons l ls ih =>
    cases l with
    | vrf a t =>
      simpa [takenTables, List.filter_cons, List.filterMap_cons] using ih
    | device a =>
      simpa [takenTables, List.filter_cons, List.filterMap_cons] using ih

/-! ## C5: the allocator returns the least free positive table ID -/

/-- C5 (amended): for every link list whose VRF devices use table set `T`,
if `m = min(ℕ≥1 \ T)` and `m ≤ 2^32 − 2` (always the case when fewer than
`2^32 − 2` table IDs are taken), `findFreeRoutingTableID` returns `m`;
table IDs of links that are not VRF devices are ignored. -/
theorem findFreeRoutingTableID_returns_min (links : List Link) (m : Nat)
    (h1 : 1 ≤ m) (hm : m ≤ 2 ^ 32 - 2) (hfree : m ∉ takenTables links)
    (hmin : ∀ k < m, 1 ≤ k → k ∈ takenTables links) :
    findFreeRoutingTableID links = .ok m ∧
    findFreeRoutingTableID links =
      findFreeRoutingTableID (links.filter (fun l => match l with
        | .vrf _ _ => true
        | .device _ => false)) := by
  constructor
  · exact findFreeAux_ok _ m _ 1 h1 (by omega) hfree
      (fun k hk1 hk2 => hmin k hk2 hk1)
  · unfold findFreeRoutingTableID
    rw [takenTables_filter]

/-- A small namespace with two VRF devices (tables 1 and 3) and one plain
device. -/
def demoLinks : List Link :=
  [.vrf { name := "vrf-red", index := 5, masterIndex := 0 } 1,
   .device { name := "eth0", index := 2, masterIndex := 0 },
   .vrf { name := "vrf-green", index := 7, masterIndex := 0 } 3]

/-- Witness for C5: with VRF tables {1, 3}, the allocator returns 2. -/
theorem findFreeRoutingTableID_returns_min_witness :
    findFreeRoutingTableID demoLinks = .ok 2 :=
  (findFreeRoutingTableID_returns_min demoLinks 2 (by decide) (by decide)
    (by decide) (by decide)).1

/-- A link list whose VRF devices take every table ID the allocator's scan
can visit (`1 .. 2^32 − 2`). -/
def bigLinks : List Link :=
  (List.range' 1 (2 ^ 32 - 2)).map
    (fun t => Link.vrf { name := "vrf", index := 0, masterIndex := 0 } t)

theorem takenTables_bigLinks :
    takenTables bigLinks = List.range' 1 (2 ^ 32 - 2) := by
  unfold bigLinks takenTables
  rw [List.filterMap_map]
  exact List.filterMap_some _

theorem findFree_bigLinks_error :
    findFreeRoutingTableID bigLinks =
      .error "findFreeRoutingTableID: Failed to find an available routing id" := by
  unfold findFreeRoutingTableID
  rw [takenTables_bigLinks]
  exact findFreeAux_error _ _ 1
    (fun k h1 h2 => by rw [List.mem_range'_1]; omega)

/-- Counterexample to C5 as stated: when the taken set is `{1, …, 2^32 − 2}`,
the smallest positive integer outside it is `4294967295`, yet the allocator
returns an error rather than that minimum. -/
theorem findFreeRoutingTableID_returns_min_counterexample :
    (1 ≤ 4294967295 ∧ 4294967295 ∉ takenTables bigLinks ∧
      ∀ k < 4294967295, 1 ≤ k → k ∈ takenTables bigLinks) ∧
    findFreeRoutingTableID bigLinks =
      .error "findFreeRoutingTableID: Failed to find an available routing id" := by
  refine ⟨⟨by omega, ?_, ?_⟩, findFree_bigLinks_error⟩
  · rw [takenTables_bigLinks]
    intro hmem
    rw [List.mem_range'_1] at hmem
    omega
  · intro k hk h1
    rw [takenTables_bigLinks, List.mem_range'_1]
    omega

/-! ## C6: when the allocator can fail -/

/-- C6 (amended): the allocator succeeds exactly when at least one table ID
in its scan range `1 .. 2^32 − 2` is not used by an existing VRF device
(so it fails only when all of `1 .. 2^32 − 2` are used — not only when
every representable ID is used). -/
theorem findFreeRoutingTableID_success_iff (links : List Link) :
    (∃ m, findFreeRoutingTableID links = .ok m) ↔
    (∃ k, 1 ≤ k ∧ k ≤ 2 ^ 32 - 2 ∧ k ∉ takenTables links) := by
  constructor
  · rintro ⟨m, hm⟩
    have := findFreeAux_ok_inv _ _ _ _ hm
    exact ⟨m, this.1, by omega, this.2.2⟩
  · rintro ⟨k, h1, h2, h3⟩
    cases hres : findFreeRoutingTableID links with
    | ok m => exact ⟨m, rfl⟩
    | error e =>
      have := findFreeAux_error_taken _ _ _ _ hres k h1 (by omega)
      exact absurd this h3

/-- Witness for C6: the demo namespace has a free ID in range, and the
allocator indeed succeeds there. -/
theorem findFreeRoutingTableID_success_iff_witness :
    ∃ m, findFreeRoutingTableID demoLinks = .ok m :=
  (findFreeRoutingTableID_success_iff demoLinks).mpr ⟨2, by decide, by decide, by decide⟩

/-- Counterexample to C6 as stated: `4294967295` is a representable table
ID (it fits in 32 bits) that no VRF device uses, yet the allocator fails. -/
theorem findFreeRoutingTableID_fails_despite_free_id :
    4294967295 < 2 ^ 32 ∧ 4294967295 ∉ takenTables bigLinks ∧
    findFreeRoutingTableID bigLinks =
      .error "findFreeRoutingTableID: Failed to find an available routing id" := by
  refine ⟨by omega, ?_, findFree_bigLinks_error⟩
  rw [takenTables_bigLinks]
  intro hmem
  rw [List.mem_range'_1] at hmem
  omega

/-! ## C7: table selection in createVRF -/

/-- C7: `createVRF` with `tableID = 0` builds the VRF with the allocator's
result over the namespace's current link list, while a non-zero `tableID`
is used as the VRF's table unchanged — with no hypothesis relating it to
the tables already taken, i.e. no collision check. -/
theorem createVRF_table_selection (env : CreateEnv) (name : String)
    (links : List Link)
    (hl : env.linkList = .ok links)
    (hadd : ∀ v, env.linkAdd v = .ok ())
    (hup : ∀ v, env.linkSetUp v = .ok ()) :
    (∀ t, t ≠ 0 →
      createVRF env name t = .ok { name := name, index := 0, table := t }) ∧
    (∀ m, findFreeRoutingTableID links = .ok m →
      createVRF env name 0 = .ok { name := name, index := 0, table := m }) := by
  constructor
  · intro t ht
    unfold createVRF
    rw [hl]
    have hne : (t == 0) = false := by simpa using ht
    simp [hne, hadd, hup]
  · intro m hm
    unfold createVRF
    rw [hl]
    simp [hm, hadd, hup]

/-- A create environment over the demo namespace where every kernel
mutation succeeds. -/
def demoCreateEnv : CreateEnv where
  linkList := .ok demoLinks
  linkAdd := fun _ => .ok ()
  linkSetUp := fun _ => .ok ()

/-- The allocator's answer on the demo namespace, evaluated. -/
theorem demoLinks_alloc : findFreeRoutingTableID demoLinks = .ok 2 := rfl

/-- Witness for C7: `vrf-blue` requested with table 0 over existing VRF
tables {1, 3} is created with table 2; a caller-supplied table 3 is used
unchanged even though table 3 is already taken. -/
theorem createVRF_table_selection_witness :
    createVRF demoCreateEnv "vrf-blue" 0 =
      .ok { name := "vrf-blue", index := 0, table := 2 } ∧
    createVRF demoCreateEnv "vrf-blue" 3 =
      .ok { name := "vrf-blue", index := 0, table := 3 } := by
  have h := createVRF_table_selection demoCreateEnv "vrf-blue" demoLinks rfl
    (fun _ => rfl) (fun _ => rfl)
  exact ⟨h.2 2 demoLinks_alloc, h.1 3 (by decide)⟩

/-! ## C8: findVRF type checking -/

/-- C8: `findVRF` fails with a type-mismatch error when the named link
exists but is not a VRF device, and succeeds on a VRF link, returning the
table ID the link carries — in particular the table the VRF was created
with. -/
theorem findVRF_spec (lookup : String → Except String Link) (name : String) :
    (∀ attrs, lookup name = .ok (.device attrs) →
      findVRF lookup name = .error ("Netlink " ++ name ++ " is not a VRF")) ∧
    (∀ attrs t, lookup name = .ok (.vrf attrs t) →
      findVRF lookup name =
        .ok { name := attrs.name, index := attrs.index, table := t }) ∧
    (∀ env tid v attrs, createVRF env name tid = .ok v →
      lookup name = .ok (.vrf attrs v.table) →
      findVRF lookup name =
        .ok { name := attrs.name, index := attrs.index, table := v.table }) := by
  refine ⟨?_, ?_, ?_⟩
  · intro attrs h
    unfold findVRF
    rw [h]
  · intro attrs t h
    unfold findVRF
    rw [h]
  · intro env tid v attrs _ h
    unfold findVRF
    rw [h]

/-- A lookup over a namespace holding the VRF `vrf-red` (table 1) and the
plain device `eth0`. -/
def demoLookup : String → Except String Link
  | "vrf-red" => .ok (.vrf { name := "vrf-red", index := 5, masterIndex := 0 } 1)
  | "eth0" => .ok (.device { name := "eth0", index := 2, masterIndex := 0 })
  | n => .error ("Link not found " ++ n)

/-- Witness for C8: `eth0` exists but is not a VRF, so `findVRF` fails with
the type-mismatch error; `vrf-red` is found with its table. -/
theorem findVRF_spec_witness :
    findVRF demoLookup "eth0" = .error "Netlink eth0 is not a VRF" ∧
    findVRF demoLookup "vrf-red" =
      .ok { name := "vrf-red", index := 5, table := 1 } :=
  ⟨(findVRF_spec demoLookup "eth0").1 _ rfl,
   (findVRF_spec demoLookup "vrf-red").2.1 _ 1 rfl⟩

/-! ## C9: resetMaster -/

/-- C9: `resetMaster` looks the interface up by name and clears its master
relation; each failure is returned immediately with no retry (each kernel
call is attempted at most once) and the returned error names the
interface. -/
theorem resetMaster_spec (lookup : String → Except String Link)
    (snm : Nat → Except String Unit) (name : String) :
    (∀ e, lookup name = .error e →
      resetMaster lookup snm name =
        ([.lookup name],
          .error ("resetMaster: could not get link by name " ++ name))) ∧
    (∀ i e, lookup name = .ok i → snm i.attrs.index = .error e →
      resetMaster lookup snm name =
        ([.lookup name, .setNoMaster i.attrs.index],
          .error ("resetMaster: could reset master to " ++ name))) ∧
    (∀ i, lookup name = .ok i → snm i.attrs.index = .ok () →
      resetMaster lookup snm name =
        ([.lookup name, .setNoMaster i.attrs.index], .ok ())) := by
  refine ⟨?_, ?_, ?_⟩
  · intro e h
    unfold resetMaster
    rw [h]
  · intro i e h1 h2
    unfold resetMaster
    rw [h1]
    dsimp only
    rw [h2]
  · intro i h1 h2
    unfold resetMaster
    rw [h1]
    dsimp only
    rw [h2]

/-- Witness for C9: clearing the master of `eth0` (which has none) succeeds
as a no-op; looking up an absent interface fails with an error naming it,
after exactly one lookup attempt and no clear-master attempt. -/
theorem resetMaster_spec_witness :
    resetMaster demoLookup (fun _ => .ok ()) "eth0" =
      ([.lookup "eth0", .setNoMaster 2], .ok ()) ∧
    resetMaster demoLookup (fun _ => .ok ()) "wlan0" =
      ([.lookup "wlan0"],
        .error "resetMaster: could not get link by name wlan0") :=
  ⟨(resetMaster_spec demoLookup (fun _ => .ok ()) "eth0").2.2 _ rfl rfl,
   (resetMaster_spec demoLookup (fun _ => .ok ()) "wlan0").1 _ rfl⟩

/-! ## Convergence-wait lemmas -/

/-- The shape of a convergence-poll trace that performed `n` retries after
the initial attempt, starting at attempt number `c`: each attempt's query,
with the backoff sleep before each retry. -/
def pollTrace (qa : Action) : Nat → Nat → List Action
  | _, 0 => [qa]
  | c, n + 1 => qa :: .sleep (10 * 2 ^ c) :: pollTrace qa (c + 1) n

/-- The backoff sleeps of a poll that performed `n` retries starting at
attempt `c`. -/
def sleepSchedule : Nat → Nat → List Nat
  | _, 0 => []
  | c, n + 1 => 10 * 2 ^ c :: sleepSchedule (c + 1) n

theorem convWaitAux_trace_shape (resp : Nat → Except String (List Route))
    (qa : Action) (intf : String) (table : Nat) (dstStr : String) :
    ∀ fuel c, ∃ n, n ≤ fuel ∧
      (convWaitAux resp qa intf table dstStr c fuel).1 = pollTrace qa c n := by
  intro fuel
  induction fuel with
  | zero =>
    intro c
    refine ⟨0, le_rfl, ?_⟩
    simp only [convWaitAux]
    cases resp c with
    | error e => rfl
    | ok l =>
      by_cases hl : l.length ≥ 1
      · simp [hl, pollTrace]
      · simp [hl, pollTrace]
  | succ fuel ih =>
    intro c
    simp only [convWaitAux]
    cases resp c with
    | error e => exact ⟨0, by omega, rfl⟩
    | ok l =>
      by_cases hl : l.length ≥ 1
      · exact ⟨0, by omega, by simp [hl, pollTrace]⟩
      · obtain ⟨n, hn, hshape⟩ := ih (c + 1)
        exact ⟨n + 1, by omega, by simp [hl, pollTrace, hshape]⟩

theorem queriesOf_pollTrace (d : IPNet) (t : Int) (li : Nat) :
    ∀ n c, queriesOf (pollTrace (.routeQuery d t li) c n) =
      List.replicate (n + 1) (d, t, li) := by
  intro n
  induction n with
  | zero => intro c; rfl
  | succ n ih =>
    intro c
    simp [pollTrace, queriesOf, List.filterMap_cons, List.replicate_succ] at *
    exact ih (c + 1)

theorem sleepsOf_pollTrace (d : IPNet) (t : Int) (li : Nat) :
    ∀ n c, sleepsOf (pollTrace (.routeQuery d t li) c n) = sleepSchedule c n := by
  intro n
  induction n with
  | zero => intro c; rfl
  | succ n ih =>
    intro c
    simp [pollTrace, sleepsOf, List.filterMap_cons, sleepSchedule] at *
    exact ih (c + 1)

theorem sleepSchedule_prefix :
    ∀ n m c, n ≤ m → sleepSchedule c n <+: sleepSchedule c m := by
  intro n
  induction n with
  | zero => intro m c _; exact List.nil_prefix
  | succ n ih =>
    intro m c h
    match m with
    | m + 1 =>
      simp only [sleepSchedule]
      obtain ⟨t, ht⟩ := ih m (c + 1) (by omega)
      exact ⟨t, by rw [List.cons_append, ht]⟩

theorem convWaitAux_timeout (resp : Nat → Except String (List Route))
    (qa : Action) (intf : String) (table : Nat) (dstStr : String) :
    ∀ fuel c, (∀ k, c ≤ k → k ≤ c + fuel → resp k = .ok []) →
      (convWaitAux resp qa intf table dstStr c fuel).2 =
        .error (timeoutMsg intf table dstStr) := by
  intro fuel
  induction fuel with
  | zero =>
    intro c h
    simp only [convWaitAux]
    rw [h c le_rfl (by omega)]
    rfl
  | succ fuel ih =>
    intro c h
    simp only [convWaitAux]
    rw [h c le_rfl (by omega)]
    simpa using ih (c + 1) (fun k hk1 hk2 => h k (by omega) (by omega))

theorem convWaitAux_ok_iff (resp : Nat → Except String (List Route))
    (qa : Action) (intf : String) (table : Nat) (dstStr : String) :
    ∀ fuel c, (∀ k, c ≤ k → k ≤ c + fuel → ∃ l, resp k = .ok l) →
      ((convWaitAux resp qa intf table dstStr c fuel).2 = .ok () ↔
        ∃ k, c ≤ k ∧ k ≤ c + fuel ∧ ∃ l, resp k = .ok l ∧ l ≠ []) := by
  intro fuel
  induction fuel with
  | zero =>
    intro c h
    obtain ⟨l, hl⟩ := h c le_rfl (by omega)
    simp only [convWaitAux]
    rw [hl]
    by_cases hlen : l.length ≥ 1
    · simp only [if_pos hlen]
      constructor
      · intro _
        exact ⟨c, le_rfl, by omega, l, hl, by
          intro hnil
          rw [hnil] at hlen
          simp at hlen⟩
      · intro _; trivial
    · simp only [if_neg hlen]
      constructor
      · intro habs; exact absurd habs (by simp)
      · rintro ⟨k, hk1, hk2, l', hl', hne⟩
        have hkc : k = c := by omega
        rw [hkc, hl] at hl'
        have : l = l' := by injection hl'
        rw [← this] at hne
        have : l.length = 0 := by omega
        exact absurd (List.eq_nil_of_length_eq_zero this) hne
  | succ fuel ih =>
    intro c h
    obtain ⟨l, hl⟩ := h c le_rfl (by omega)
    simp only [convWaitAux]
    rw [hl]
    by_cases hlen : l.length ≥ 1
    · simp only [if_pos hlen]
      constructor
      · intro _
        exact ⟨c, le_rfl, by omega, l, hl, by
          intro hnil
          rw [hnil] at hlen
          simp at hlen⟩
      · intro _; trivial
    · simp only [if_neg hlen]
      have hrec := ih (c + 1) (fun k hk1 hk2 => h k (by omega) (by omega))
      simp only [hrec]
      constructor
      · rintro ⟨k, hk1, hk2, hw⟩
        exact ⟨k, by omega, by omega, hw⟩
      · rintro ⟨k, hk1, hk2, l', hl', hne⟩
        by_cases hkc : k = c
        · rw [hkc, hl] at hl'
          have : l = l' := by injection hl'
          rw [← this] at hne
          have : l.length = 0 := by omega
          exact absurd (List.eq_nil_of_length_eq_zero this) hne
        · exact ⟨k, by omega, by omega, l', hl', hne⟩

/-! ## C2: the convergence wait protocol -/

/-- C2: the convergence wait for one restored address performs at most 9
route-query attempts (its trace is a poll of `n ≤ 8` retries), each attempt
queries with destination the restored address as a single-host prefix,
table the VRF's table and link index the interface's; the sleeps before
the successive retries are (an initial segment of) 10, 20, 40, 80, 160,
320, 640, 1280 ms; with error-free kernel replies it succeeds exactly when
some attempt observes at least one matching route, and when all 9 attempts
observe none it returns the timeout error naming the interface, the table
and the destination. -/
theorem convergenceWait_spec (env : NetEnv) (i : Link) (vrf : Vrf)
    (intf : String) (toFind : Addr) :
    (∃ n, n ≤ 8 ∧ (convergenceWait env i vrf intf toFind).1 =
      pollTrace (.routeQuery (hostPrefix toFind) (Int.ofNat vrf.table)
        i.attrs.index) 0 n) ∧
    (queriesOf (convergenceWait env i vrf intf toFind).1).length ≤ 9 ∧
    (∀ q ∈ queriesOf (convergenceWait env i vrf intf toFind).1,
      q = (hostPrefix toFind, Int.ofNat vrf.table, i.attrs.index)) ∧
    sleepsOf (convergenceWait env i vrf intf toFind).1 <+:
      [10, 20, 40, 80, 160, 320, 640, 1280] ∧
    ((∀ k, k ≤ 8 → env.routeQueryResult toFind k = .ok []) →
      (convergenceWait env i vrf intf toFind).2 =
        .error (timeoutMsg intf vrf.table toFind.ipnet.render)) ∧
    ((∀ k, k ≤ 8 → ∃ l, env.routeQueryResult toFind k = .ok l) →
      ((convergenceWait env i vrf intf toFind).2 = .ok () ↔
        ∃ k, k ≤ 8 ∧ ∃ l, env.routeQueryResult toFind k = .ok l ∧ l ≠ [])) := by
  obtain ⟨n, hn, hshape⟩ := convWaitAux_trace_shape (env.routeQueryResult toFind)
    (.routeQuery (hostPrefix toFind) (Int.ofNat vrf.table) i.attrs.index)
    intf vrf.table toFind.ipnet.render 8 0
  have hq : queriesOf (convergenceWait env i vrf intf toFind).1 =
      List.replicate (n + 1)
        (hostPrefix toFind, Int.ofNat vrf.table, i.attrs.index) := by
    rw [convergenceWait, hshape, queriesOf_pollTrace]
  have hs : sleepsOf (convergenceWait env i vrf intf toFind).1 =
      sleepSchedule 0 n := by
    rw [convergenceWait, hshape, sleepsOf_pollTrace]
  refine ⟨⟨n, hn, hshape⟩, ?_, ?_, ?_, ?_, ?_⟩
  · rw [hq, List.length_replicate]
    omega
  · intro q hqmem
    rw [hq] at hqmem
    exact List.eq_of_mem_replicate hqmem
  · rw [hs]
    have := sleepSchedule_prefix n 8 0 hn
    rwa [show sleepSchedule 0 8 = [10, 20, 40, 80, 160, 320, 640, 1280] from rfl]
      at this
  · intro h
    exact convWaitAux_timeout _ _ _ _ _ 8 0
      (fun k hk1 hk2 => h k (by omega))
  · intro h
    have := convWaitAux_ok_iff (env.routeQueryResult toFind)
      (.routeQuery (hostPrefix toFind) (Int.ofNat vrf.table) i.attrs.index)
      intf vrf.table toFind.ipnet.render 8 0
      (fun k hk1 hk2 => h k (by omega))
    rw [convergenceWait, this]
    constructor
    · rintro ⟨k, _, hk2, hw⟩
      exact ⟨k, by omega, hw⟩
    · rintro ⟨k, hk, hw⟩
      exact ⟨k, by omega, by omega, hw⟩

/-! ## A concrete demo namespace for the witnesses -/

/-- A global IPv6 address (2001:db8::10/64 rendered as bytes). -/
def addr6 : Addr :=
  { ipnet :=
      { ip := [32, 1, 13, 184, 0, 0, 0, 0, 0, 0, 0, 0, 0, 0, 0, 16],
        mask := [255, 255, 255, 255, 255, 255, 255, 255, 0, 0, 0, 0, 0, 0, 0, 0] },
    scope := SCOPE_UNIVERSE, family := FAMILY_V6 }

/-- A link-local IPv6 address (scope `SCOPE_LINK = 253`). -/
def addrLinkLocal : Addr :=
  { ipnet :=
      { ip := [254, 128, 0, 0, 0, 0, 0, 0, 0, 0, 0, 0, 0, 0, 0, 1],
        mask := [255, 255, 255, 255, 255, 255, 255, 255, 0, 0, 0, 0, 0, 0, 0, 0] },
    scope := 253, family := FAMILY_V6 }

/-- The interface being enslaved, with no master. -/
def eth1 : Link := .device { name := "eth1", index := 2, masterIndex := 0 }

/-- The target VRF. -/
def demoVrf : Vrf := { name := "vrf-blue", index := 9, table := 2 }

/-- The host route the kernel eventually installs for `addr6`. -/
def hostRoute : Route :=
  { linkIndex := 2, scope := 0, src := none, dst := some (hostPrefix addr6),
    gw := none, table := 2, priority := 0 }

/-- A universe-scoped route with a source, owned by `eth1` (snapshotted). -/
def rUniv : Route :=
  { linkIndex := 2, scope := SCOPE_UNIVERSE, src := some [192, 168, 1, 7],
    dst := some { ip := [10, 0, 0, 0], mask := [255, 0, 0, 0] },
    gw := some [192, 168, 1, 1], table := 254, priority := 100 }

/-- A link-scoped route of `eth1` (excluded by the scope filter). -/
def rLinkScope : Route :=
  { linkIndex := 2, scope := 253, src := some [192, 168, 1, 7],
    dst := some { ip := [192, 168, 1, 0], mask := [255, 255, 255, 0] },
    gw := none, table := 254, priority := 0 }

/-- A universe-scoped route of `eth1` without a source (excluded by the
`Src != nil` filter). -/
def rNoSrc : Route :=
  { linkIndex := 2, scope := SCOPE_UNIVERSE, src := none,
    dst := some { ip := [172, 16, 0, 0], mask := [255, 240, 0, 0] },
    gw := some [192, 168, 1, 1], table := 254, priority := 0 }

/-- A route owned by another link (excluded by the OIF filter). -/
def rOther : Route :=
  { linkIndex := 7, scope := SCOPE_UNIVERSE, src := some [192, 168, 2, 9],
    dst := some { ip := [10, 1, 0, 0], mask := [255, 255, 0, 0] },
    gw := none, table := 254, priority := 0 }

/-- A run in which enslaving `eth1` drops its global IPv6 address, the
kernel converges at the third poll attempt, and every mutation succeeds. -/
def demoNetEnv : NetEnv where
  linkByName := fun n => if n == "eth1" then .ok eth1 else .error "Link not found"
  linkByIndex := fun _ => .error "no such index"
  addrsBefore := .ok [addr6, addrLinkLocal]
  kernelRoutes := .ok [rUniv, rLinkScope, rNoSrc, rOther]
  setMasterResult := .ok ()
  addrsAfter := .ok [addrLinkLocal]
  addrAddResult := fun _ => .ok ()
  routeQueryResult := fun _ k => if k < 2 then .ok [] else .ok [hostRoute]
  routeReplaceResult := fun _ => .ok ()

/-- Witness for C2: on the demo run the convergence wait succeeds (the
kernel reports the host route at attempt 2). -/
theorem convergenceWait_spec_witness :
    (convergenceWait demoNetEnv eth1 demoVrf "eth1" addr6).2 = .ok () :=
  ((convergenceWait_spec demoNetEnv eth1 demoVrf "eth1" addr6).2.2.2.2.2
    (fun k _ => by
      by_cases hk : k < 2
      · exact ⟨[], by simp [demoNetEnv, hk]⟩
      · exact ⟨[hostRoute], by simp [demoNetEnv, hk]⟩)).mpr
    ⟨2, by omega, [hostRoute], by simp [demoNetEnv], by simp⟩

/-! ## Trace observation lemmas -/

/-- The master-set operations of a trace. -/
def setMastersOf (tr : List Action) : List (Nat × Nat) :=
  tr.filterMap (fun a => match a with
    | .setMaster li vi => some (li, vi)
    | _ => none)

theorem addrAddsOf_pollTrace (d : IPNet) (t : Int) (li : Nat) :
    ∀ n c, addrAddsOf (pollTrace (.routeQuery d t li) c n) = [] := by
  intro n
  induction n with
  | zero => intro c; rfl
  | succ n ih =>
    intro c
    simp only [pollTrace, addrAddsOf, List.filterMap_cons]
    exact ih (c + 1)

theorem replacesOf_pollTrace (d : IPNet) (t : Int) (li : Nat) :
    ∀ n c, replacesOf (pollTrace (.routeQuery d t li) c n) = [] := by
  intro n
  induction n with
  | zero => intro c; rfl
  | succ n ih =>
    intro c
    simp only [pollTrace, replacesOf, List.filterMap_cons]
    exact ih (c + 1)

theorem setMastersOf_pollTrace (d : IPNet) (t : Int) (li : Nat) :
    ∀ n c, setMastersOf (pollTrace (.routeQuery d t li) c n) = [] := by
  intro n
  induction n with
  | zero => intro c; rfl
  | succ n ih =>
    intro c
    simp only [pollTrace, setMastersOf, List.filterMap_cons]
    exact ih (c + 1)

theorem addrAddsOf_append (tr1 tr2 : List Action) :
    addrAddsOf (tr1 ++ tr2) = addrAddsOf tr1 ++ addrAddsOf tr2 :=
  List.filterMap_append _ _ _

theorem replacesOf_append (tr1 tr2 : List Action) :
    replacesOf (tr1 ++ tr2) = replacesOf tr1 ++ replacesOf tr2 :=
  List.filterMap_append _ _ _

theorem queriesOf_append (tr1 tr2 : List Action) :
    queriesOf (tr1 ++ tr2) = queriesOf tr1 ++ queriesOf tr2 :=
  List.filterMap_append _ _ _

theorem setMastersOf_append (tr1 tr2 : List Action) :
    setMastersOf (tr1 ++ tr2) = setMastersOf tr1 ++ setMastersOf tr2 :=
  List.filterMap_append _ _ _

theorem addrAddsOf_cons_addrAdd (x : Addr) (tr : List Action) :
    addrAddsOf (.addrAdd x :: tr) = x :: addrAddsOf tr := rfl

theorem addrAddsOf_cons_setMaster (a b : Nat) (tr : List Action) :
    addrAddsOf (.setMaster a b :: tr) = addrAddsOf tr := rfl

theorem addrAddsOf_cons_routeReplace (r : Route) (tr : List Action) :
    addrAddsOf (.routeReplace r :: tr) = addrAddsOf tr := rfl

theorem replacesOf_cons_routeReplace (r : Route) (tr : List Action) :
    replacesOf (.routeReplace r :: tr) = r :: replacesOf tr := rfl

theorem replacesOf_cons_addrAdd (x : Addr) (tr : List Action) :
    replacesOf (.addrAdd x :: tr) = replacesOf tr := rfl

theorem replacesOf_cons_setMaster (a b : Nat) (tr : List Action) :
    replacesOf (.setMaster a b :: tr) = replacesOf tr := rfl

theorem queriesOf_cons_addrAdd (x : Addr) (tr : List Action) :
    queriesOf (.addrAdd x :: tr) = queriesOf tr := rfl

theorem queriesOf_cons_setMaster (a b : Nat) (tr : List Action) :
    queriesOf (.setMaster a b :: tr) = queriesOf tr := rfl

theorem queriesOf_cons_routeReplace (r : Route) (tr : List Action) :
    queriesOf (.routeReplace r :: tr) = queriesOf tr := rfl

theorem setMastersOf_cons_setMaster (a b : Nat) (tr : List Action) :
    setMastersOf (.setMaster a b :: tr) = (a, b) :: setMastersOf tr := rfl

theorem setMastersOf_cons_addrAdd (x : Addr) (tr : List Action) :
    setMastersOf (.addrAdd x :: tr) = setMastersOf tr := rfl

theorem setMastersOf_cons_routeReplace (r : Route) (tr : List Action) :
    setMastersOf (.routeReplace r :: tr) = setMastersOf tr := rfl

/-! ## restoreLoop lemmas -/

/-- The addresses of the before snapshot that no address of the after
snapshot `Equal`s, in snapshot order (the repairs `addInterface` must
perform). -/
def missingAddrs (beforeAddresses afterAddresses : List Addr) : List Addr :=
  beforeAddresses.filter
    (fun toFind => !(afterAddresses.any (fun current => toFind.Equal current)))

/-- A re-add of `a` and the subsequent convergence wait both succeed. -/
def repairOk (env : NetEnv) (i : Link) (vrf : Vrf) (intf : String)
    (a : Addr) : Prop :=
  env.addrAddResult a = .ok () ∧ (convergenceWait env i vrf intf a).2 = .ok ()

theorem restoreLoop_ok (env : NetEnv) (i : Link) (vrf : Vrf) (intf : String)
    (afterAddresses : List Addr) :
    ∀ beforeAddresses,
      (∀ a ∈ missingAddrs beforeAddresses afterAddresses,
        repairOk env i vrf intf a) →
      (restoreLoop env i vrf intf afterAddresses beforeAddresses).2 = .ok () ∧
      addrAddsOf (restoreLoop env i vrf intf afterAddresses beforeAddresses).1 =
        missingAddrs beforeAddresses afterAddresses ∧
      replacesOf (restoreLoop env i vrf intf afterAddresses beforeAddresses).1 = [] ∧
      setMastersOf (restoreLoop env i vrf intf afterAddresses beforeAddresses).1 = [] ∧
      (∀ a ∈ missingAddrs beforeAddresses afterAddresses,
        (hostPrefix a, Int.ofNat vrf.table, i.attrs.index) ∈
          queriesOf (restoreLoop env i vrf intf afterAddresses beforeAddresses).1) := by
  intro before
  induction before with
  | nil => intro _; exact ⟨rfl, rfl, rfl, rfl, by intro a ha; simp [missingAddrs] at ha⟩
  | cons toFind rest ih =>
    intro h
    by_cases hfound : afterAddresses.any (fun current => toFind.Equal current)
    · have hmiss : missingAddrs (toFind :: rest) afterAddresses =
          missingAddrs rest afterAddresses := by
        simp [missingAddrs, List.filter_cons, hfound]
      rw [hmiss] at h ⊢
      simpa [restoreLoop, hfound] using ih h
    · have hmiss : missingAddrs (toFind :: rest) afterAddresses =
          toFind :: missingAddrs rest afterAddresses := by
        simp [missingAddrs, List.filter_cons, hfound]
      rw [hmiss] at h ⊢
      obtain ⟨hadd, hwait⟩ := h toFind (by simp)
      obtain ⟨n, hn, hshape0⟩ := convWaitAux_trace_shape
        (env.routeQueryResult toFind)
        (.routeQuery (hostPrefix toFind) (Int.ofNat vrf.table) i.attrs.index)
        intf vrf.table toFind.ipnet.render 8 0
      have hshape : (convergenceWait env i vrf intf toFind).1 =
          pollTrace (.routeQuery (hostPrefix toFind) (Int.ofNat vrf.table)
            i.attrs.index) 0 n := hshape0
      cases hw : convergenceWait env i vrf intf toFind with
      | mk wtr wres =>
        rw [hw] at hshape hwait
        dsimp only at hshape hwait
        cases hr : restoreLoop env i vrf intf afterAddresses rest with
        | mk rtr rres =>
          obtain ⟨ih1, ih2, ih3, ih4, ih5⟩ := ih (fun a ha => h a (by simp [ha]))
          rw [hr] at ih1 ih2 ih3 ih4 ih5
          dsimp only at ih1 ih2 ih3 ih4 ih5
          have hout : restoreLoop env i vrf intf afterAddresses (toFind :: rest) =
              (.addrAdd toFind :: wtr ++ rtr, rres) := by
            simp [restoreLoop, hfound, hadd, hw, hwait, hr]
          rw [hout]
          dsimp only
          rw [List.cons_append]
          refine ⟨ih1, ?_, ?_, ?_, ?_⟩
          · rw [addrAddsOf_cons_addrAdd, addrAddsOf_append, hshape,
              addrAddsOf_pollTrace]
            simp [ih2]
          · rw [replacesOf_cons_addrAdd, replacesOf_append, hshape,
              replacesOf_pollTrace]
            simp [ih3]
          · rw [setMastersOf_cons_addrAdd, setMastersOf_append, hshape,
              setMastersOf_pollTrace]
            simp [ih4]
          · intro a ha
            rw [queriesOf_cons_addrAdd, queriesOf_append, hshape,
              queriesOf_pollTrace]
            rcases List.mem_cons.mp ha with heq | hmem
            · subst heq
              exact List.mem_append_left _
                (List.mem_replicate.mpr ⟨by omega, rfl⟩)
            · exact List.mem_append_right _ (ih5 a hmem)


theorem restoreLoop_trace_actions (env : NetEnv) (i : Link) (vrf : Vrf)
    (intf : String) (afterAddresses : List Addr) :
    ∀ beforeAddresses,
      setMastersOf (restoreLoop env i vrf intf afterAddresses beforeAddresses).1 = [] ∧
      replacesOf (restoreLoop env i vrf intf afterAddresses beforeAddresses).1 = [] := by
  intro before
  induction before with
  | nil => exact ⟨rfl, rfl⟩
  | cons toFind rest ih =>
    by_cases hfound : (afterAddresses.any fun current => toFind.Equal current) = true
    · simpa [restoreLoop, hfound] using ih
    · cases hadd : env.addrAddResult toFind with
      | error e => simp [restoreLoop, hfound, hadd, setMastersOf, replacesOf]
      | ok u =>
        obtain ⟨n, hn, hshape0⟩ := convWaitAux_trace_shape
          (env.routeQueryResult toFind)
          (.routeQuery (hostPrefix toFind) (Int.ofNat vrf.table) i.attrs.index)
          intf vrf.table toFind.ipnet.render 8 0
        have hshape : (convergenceWait env i vrf intf toFind).1 =
            pollTrace (.routeQuery (hostPrefix toFind) (Int.ofNat vrf.table)
              i.attrs.index) 0 n := hshape0
        cases hw : convergenceWait env i vrf intf toFind with
        | mk wtr wres =>
          rw [hw] at hshape
          dsimp only at hshape
          cases wres with
          | error e =>
            have hout : restoreLoop env i vrf intf afterAddresses
                (toFind :: rest) = (.addrAdd toFind :: wtr, .error e) := by
              simp [restoreLoop, hfound, hadd, hw]
            rw [hout]
            dsimp only
            rw [setMastersOf_cons_addrAdd, replacesOf_cons_addrAdd, hshape,
              setMastersOf_pollTrace, replacesOf_pollTrace]
            exact ⟨rfl, rfl⟩
          | ok u2 =>
            cases hr : restoreLoop env i vrf intf afterAddresses rest with
            | mk rtr rres =>
              obtain ⟨ih1, ih2⟩ := ih
              rw [hr] at ih1 ih2
              dsimp only at ih1 ih2
              have hout : restoreLoop env i vrf intf afterAddresses
                  (toFind :: rest) = (.addrAdd toFind :: wtr ++ rtr, rres) := by
                simp [restoreLoop, hfound, hadd, hw, hr]
              rw [hout]
              dsimp only
              rw [List.cons_append]
              rw [setMastersOf_cons_addrAdd, replacesOf_cons_addrAdd,
                setMastersOf_append, replacesOf_append, hshape,
                setMastersOf_pollTrace, replacesOf_pollTrace, ih1, ih2]
              exact ⟨rfl, rfl⟩

theorem restoreLoop_addFail (env : NetEnv) (i : Link) (vrf : Vrf)
    (intf : String) (afterAddresses : List Addr) :
    ∀ beforeAddresses m1 toF m2 e,
      missingAddrs beforeAddresses afterAddresses = m1 ++ toF :: m2 →
      (∀ a ∈ m1, repairOk env i vrf intf a) →
      env.addrAddResult toF = .error e →
      (restoreLoop env i vrf intf afterAddresses beforeAddresses).2 =
        .error ("could not restore address " ++ toF.render ++ " to " ++ intf ++
          " @ " ++ vrf.name ++ ": " ++ e) ∧
      addrAddsOf (restoreLoop env i vrf intf afterAddresses beforeAddresses).1 = m1 := by
  intro before
  induction before with
  | nil =>
    intro m1 toF m2 e hmiss _ _
    exact absurd hmiss (by simp [missingAddrs])
  | cons t rest ih =>
    intro m1 toF m2 e hmiss hm1 hf
    by_cases hfound : (afterAddresses.any fun current => t.Equal current) = true
    · have hm : missingAddrs (t :: rest) afterAddresses =
          missingAddrs rest afterAddresses := by
        simp [missingAddrs, List.filter_cons, hfound]
      rw [hm] at hmiss
      have hstep : restoreLoop env i vrf intf afterAddresses (t :: rest) =
          restoreLoop env i vrf intf afterAddresses rest := by
        simp [restoreLoop, hfound]
      rw [hstep]
      exact ih m1 toF m2 e hmiss hm1 hf
    · have hm : missingAddrs (t :: rest) afterAddresses =
          t :: missingAddrs rest afterAddresses := by
        simp [missingAddrs, List.filter_cons, hfound]
      rw [hm] at hmiss
      cases m1 with
      | nil =>
        rw [List.nil_append] at hmiss
        injection hmiss with h1 h2
        subst h1
        have hout : restoreLoop env i vrf intf afterAddresses (t :: rest) =
            ([], .error ("could not restore address " ++ t.render ++ " to " ++
              intf ++ " @ " ++ vrf.name ++ ": " ++ e)) := by
          simp [restoreLoop, hfound, hf]
        rw [hout]
        exact ⟨rfl, rfl⟩
      | cons b m1' =>
        rw [List.cons_append] at hmiss
        injection hmiss with h1 h2
        subst h1
        obtain ⟨haddb, hwaitb⟩ := hm1 t (by simp)
        obtain ⟨n, hn, hshape0⟩ := convWaitAux_trace_shape
          (env.routeQueryResult t)
          (.routeQuery (hostPrefix t) (Int.ofNat vrf.table) i.attrs.index)
          intf vrf.table t.ipnet.render 8 0
        have hshape : (convergenceWait env i vrf intf t).1 =
            pollTrace (.routeQuery (hostPrefix t) (Int.ofNat vrf.table)
              i.attrs.index) 0 n := hshape0
        cases hw : convergenceWait env i vrf intf t with
        | mk wtr wres =>
          rw [hw] at hshape hwaitb
          dsimp only at hshape hwaitb
          cases hr : restoreLoop env i vrf intf afterAddresses rest with
          | mk rtr rres =>
            obtain ⟨ih1, ih2⟩ := ih m1' toF m2 e h2
              (fun a ha => hm1 a (by simp [ha])) hf
            rw [hr] at ih1 ih2
            dsimp only at ih1 ih2
            have hout : restoreLoop env i vrf intf afterAddresses (t :: rest) =
                (.addrAdd t :: wtr ++ rtr, rres) := by
              simp [restoreLoop, hfound, haddb, hw, hwaitb, hr]
            rw [hout]
            dsimp only
            rw [List.cons_append]
            refine ⟨ih1, ?_⟩
            rw [addrAddsOf_cons_addrAdd, addrAddsOf_append, hshape,
              addrAddsOf_pollTrace, ih2]
            rfl

theorem restoreLoop_waitFail (env : NetEnv) (i : Link) (vrf : Vrf)
    (intf : String) (afterAddresses : List Addr) :
    ∀ beforeAddresses m1 toF m2 e,
      missingAddrs beforeAddresses afterAddresses = m1 ++ toF :: m2 →
      (∀ a ∈ m1, repairOk env i vrf intf a) →
      env.addrAddResult toF = .ok () →
      (convergenceWait env i vrf intf toF).2 = .error e →
      (restoreLoop env i vrf intf afterAddresses beforeAddresses).2 = .error e ∧
      addrAddsOf (restoreLoop env i vrf intf afterAddresses beforeAddresses).1 =
        m1 ++ [toF] := by
  intro before
  induction before with
  | nil =>
    intro m1 toF m2 e hmiss _ _ _
    exact absurd hmiss (by simp [missingAddrs])
  | cons t rest ih =>
    intro m1 toF m2 e hmiss hm1 hok hwf
    by_cases hfound : (afterAddresses.any fun current => t.Equal current) = true
    · have hm : missingAddrs (t :: rest) afterAddresses =
          missingAddrs rest afterAddresses := by
        simp [missingAddrs, List.filter_cons, hfound]
      rw [hm] at hmiss
      have hstep : restoreLoop env i vrf intf afterAddresses (t :: rest) =
          restoreLoop env i vrf intf afterAddresses rest := by
        simp [restoreLoop, hfound]
      rw [hstep]
      exact ih m1 toF m2 e hmiss hm1 hok hwf
    · have hm : missingAddrs (t :: rest) afterAddresses =
          t :: missingAddrs rest afterAddresses := by
        simp [missingAddrs, List.filter_cons, hfound]
      rw [hm] at hmiss
      obtain ⟨n, hn, hshape0⟩ := convWaitAux_trace_shape
        (env.routeQueryResult t)
        (.routeQuery (hostPrefix t) (Int.ofNat vrf.table) i.attrs.index)
        intf vrf.table t.ipnet.render 8 0
      have hshape : (convergenceWait env i vrf intf t).1 =
          pollTrace (.routeQuery (hostPrefix t) (Int.ofNat vrf.table)
            i.attrs.index) 0 n := hshape0
      cases m1 with
      | nil =>
        rw [List.nil_append] at hmiss
        injection hmiss with h1 h2
        subst h1
        cases hw : convergenceWait env i vrf intf t with
        | mk wtr wres =>
          rw [hw] at hshape hwf
          dsimp only at hshape hwf
          have hout : restoreLoop env i vrf intf afterAddresses (t :: rest) =
              (.addrAdd t :: wtr, .error e) := by
            simp [restoreLoop, hfound, hok, hw, hwf]
          rw [hout]
          dsimp only
          refine ⟨rfl, ?_⟩
          rw [addrAddsOf_cons_addrAdd, hshape, addrAddsOf_pollTrace]
          rfl
      | cons b m1' =>
        rw [List.cons_append] at hmiss
        injection hmiss with h1 h2
        subst h1
        obtain ⟨haddb, hwaitb⟩ := hm1 t (by simp)
        cases hw : convergenceWait env i vrf intf t with
        | mk wtr wres =>
          rw [hw] at hshape hwaitb
          dsimp only at hshape hwaitb
          cases hr : restoreLoop env i vrf intf afterAddresses rest with
          | mk rtr rres =>
            obtain ⟨ih1, ih2⟩ := ih m1' toF m2 e h2
              (fun a ha => hm1 a (by simp [ha])) hok hwf
            rw [hr] at ih1 ih2
            dsimp only at ih1 ih2
            have hout : restoreLoop env i vrf intf afterAddresses (t :: rest) =
                (.addrAdd t :: wtr ++ rtr, rres) := by
              simp [restoreLoop, hfound, haddb, hw, hwaitb, hr]
            rw [hout]
            dsimp only
            rw [List.cons_append]
            refine ⟨ih1, ?_⟩
            rw [addrAddsOf_cons_addrAdd, addrAddsOf_append, hshape,
              addrAddsOf_pollTrace, ih2]
            rfl

/-! ## replayLoop lemmas -/

theorem replayLoop_ok (env : NetEnv) (t : Int) :
    ∀ routes, (∀ r ∈ routes, env.routeReplaceResult { r with table := t } = .ok ()) →
      (replayLoop env t routes).2 = .ok () ∧
      (replayLoop env t routes).1 =
        routes.map (fun r => .routeReplace { r with table := t }) := by
  intro routes
  induction routes with
  | nil => intro _; exact ⟨rfl, rfl⟩
  | cons r rest ih =>
    intro h
    cases hr : replayLoop env t rest with
    | mk ttr tres =>
      obtain ⟨ih1, ih2⟩ := ih (fun r0 hr0 => h r0 (by simp [hr0]))
      rw [hr] at ih1 ih2
      dsimp only at ih1 ih2
      have hout : replayLoop env t (r :: rest) =
          (.routeReplace { r with table := t } :: ttr, tres) := by
        simp [replayLoop, h r (by simp), hr]
      rw [hout]
      exact ⟨ih1, by rw [List.map_cons, ih2]⟩

theorem replayLoop_fail (env : NetEnv) (t : Int) :
    ∀ s1 r0 s2 e, (∀ r ∈ s1, env.routeReplaceResult { r with table := t } = .ok ()) →
      env.routeReplaceResult { r0 with table := t } = .error e →
      (replayLoop env t (s1 ++ r0 :: s2)).2 =
        .error ("could not add route '" ++
          Route.render { r0 with table := t } ++ "': " ++ e) ∧
      (replayLoop env t (s1 ++ r0 :: s2)).1 =
        s1.map (fun r => .routeReplace { r with table := t }) := by
  intro s1
  induction s1 with
  | nil =>
    intro r0 s2 e _ hf
    rw [List.nil_append]
    have hout : replayLoop env t (r0 :: s2) =
        ([], .error ("could not add route '" ++
          Route.render { r0 with table := t } ++ "': " ++ e)) := by
      simp [replayLoop, hf]
    rw [hout]
    exact ⟨rfl, rfl⟩
  | cons r s1' ih =>
    intro r0 s2 e hok hf
    rw [List.cons_append]
    cases hr : replayLoop env t (s1' ++ r0 :: s2) with
    | mk ttr tres =>
      obtain ⟨ih1, ih2⟩ := ih r0 s2 e (fun q hq => hok q (by simp [hq])) hf
      rw [hr] at ih1 ih2
      dsimp only at ih1 ih2
      have hout : replayLoop env t (r :: (s1' ++ r0 :: s2)) =
          (.routeReplace { r with table := t } :: ttr, tres) := by
        simp [replayLoop, hok r (by simp), hr]
      rw [hout]
      exact ⟨ih1, by rw [List.map_cons, ih2]⟩

theorem replayLoop_trace_actions (env : NetEnv) (t : Int) :
    ∀ routes,
      setMastersOf (replayLoop env t routes).1 = [] ∧
      addrAddsOf (replayLoop env t routes).1 = [] := by
  intro routes
  induction routes with
  | nil => exact ⟨rfl, rfl⟩
  | cons r rest ih =>
    cases hrr : env.routeReplaceResult { r with table := t } with
    | error e => simp [replayLoop, hrr, setMastersOf, addrAddsOf]
    | ok u =>
      cases hr : replayLoop env t rest with
      | mk ttr tres =>
        obtain ⟨ih1, ih2⟩ := ih
        rw [hr] at ih1 ih2
        dsimp only at ih1 ih2
        have hout : replayLoop env t (r :: rest) =
            (.routeReplace { r with table := t } :: ttr, tres) := by
          simp [replayLoop, hrr, hr]
        rw [hout]
        dsimp only
        rw [setMastersOf_cons_routeReplace, addrAddsOf_cons_routeReplace,
          ih1, ih2]
        exact ⟨rfl, rfl⟩

/-! ## Unfolding addInterface under pinned kernel replies -/

/-- The global (universe-scoped) IPv6 addresses of a raw kernel address
list: what `getGlobalAddresses(link, FAMILY_V6)` returns on success. -/
def globals (l : List Addr) : List Addr :=
  (l.filter (fun a => FAMILY_V6 == FAMILY_ALL || a.family == FAMILY_V6)).filter
    (fun a => a.scope == SCOPE_UNIVERSE)

/-- The route snapshot `addInterface` takes before enslavement: the kernel's
routes filtered to the interface's link index and universe scope, then to
those with a non-nil source. -/
def snapRoutes (rs : List Route) (i : Link) : List Route :=
  (routeListFiltered rs
    { linkIndex := i.attrs.index, scope := SCOPE_UNIVERSE,
      src := none, dst := none, gw := none, table := 0, priority := 0 }
    { oif := true, table := false, dst := false, scope := true }).filter
    (fun route => route.src ≠ none)

theorem getGlobalAddresses_ok (l : List Addr) (nm : String) :
    getGlobalAddresses (.ok l) nm FAMILY_V6 = .ok (globals l) := rfl

theorem addInterface_eq (env : NetEnv) (vrf : Vrf) (intf : String) (i : Link)
    (ba : List Addr) (rs : List Route) (aa : List Addr)
    (h1 : env.linkByName intf = .ok i) (h2 : i.attrs.masterIndex = 0)
    (h3 : env.addrsBefore = .ok ba) (h4 : env.kernelRoutes = .ok rs)
    (h5 : env.setMasterResult = .ok ()) (h6 : env.addrsAfter = .ok aa) :
    addInterface env vrf intf =
      match restoreLoop env i vrf intf (globals aa) (globals ba) with
      | (rtr, .error e) => (.setMaster i.attrs.index vrf.index :: rtr, .error e)
      | (rtr, .ok _) =>
        match replayLoop env (Int.ofNat vrf.table) (snapRoutes rs i) with
        | (ptr, res) => (.setMaster i.attrs.index vrf.index :: rtr ++ ptr, res) := by
  have hga : getGlobalAddresses env.addrsBefore i.attrs.name FAMILY_V6 =
      .ok (globals ba) := by rw [h3]; rfl
  have hga2 : getGlobalAddresses env.addrsAfter i.attrs.name FAMILY_V6 =
      .ok (globals aa) := by rw [h6]; rfl
  cases hres : restoreLoop env i vrf intf (globals aa) (globals ba) with
  | mk rtr rres =>
    cases rres with
    | error e =>
      simp [addInterface, h1, h2, hga, hga2, h4, h5, hres, snapRoutes]
    | ok u =>
      cases hrep : replayLoop env (Int.ofNat vrf.table) (snapRoutes rs i) with
      | mk ptr pres =>
        simp only [snapRoutes, ne_eq, decide_not, Int.ofNat_eq_coe] at hrep
        simp [addInterface, h1, h2, hga, hga2, h4, h5, hres, hrep]

/-- The trace of `addInterface` when the kernel snapshot of addresses after
enslavement itself fails: only the master-set was performed. -/
theorem addInterface_afterSnapshot_fail (env : NetEnv) (vrf : Vrf)
    (intf : String) (i : Link) (ba : List Addr) (rs : List Route) (e : String)
    (h1 : env.linkByName intf = .ok i) (h2 : i.attrs.masterIndex = 0)
    (h3 : env.addrsBefore = .ok ba) (h4 : env.kernelRoutes = .ok rs)
    (h5 : env.setMasterResult = .ok ()) (h6 : env.addrsAfter = .error e) :
    addInterface env vrf intf =
      ([.setMaster i.attrs.index vrf.index],
        .error ("failed getting global ipv6 addresses after slaving interface: " ++
          ("failed getting list of IP addresses for " ++ i.attrs.name ++ ": " ++ e))) := by
  have hga : getGlobalAddresses env.addrsBefore i.attrs.name FAMILY_V6 =
      .ok (globals ba) := by rw [h3]; rfl
  have hga2 : getGlobalAddresses env.addrsAfter i.attrs.name FAMILY_V6 =
      .error ("failed getting list of IP addresses for " ++ i.attrs.name ++
        ": " ++ e) := by rw [h6]; rfl
  simp [addInterface, h1, h2, hga, hga2, h4, h5]

/-! ## Kernel-state persistence lemmas -/

theorem applyTrace_cons (s : KState) (a : Action) (tr : List Action) :
    applyTrace s (a :: tr) = applyTrace (applyAction s a) tr := rfl

theorem applyTrace_master_of_no_setMaster :
    ∀ (tr : List Action) (s : KState), setMastersOf tr = [] →
      (applyTrace s tr).master = s.master := by
  intro tr
  induction tr with
  | nil => intro s _; rfl
  | cons a tr ih =>
    intro s h
    rw [applyTrace_cons]
    cases a with
    | setMaster li vi => exact absurd h (by simp [setMastersOf])
    | addrAdd x =>
      rw [ih _ (by simpa [setMastersOf] using h)]
      rfl
    | routeQuery d t l =>
      rw [ih _ (by simpa [setMastersOf] using h)]
      rfl
    | sleep ms =>
      rw [ih _ (by simpa [setMastersOf] using h)]
      rfl
    | routeReplace r =>
      rw [ih _ (by simpa [setMastersOf] using h)]
      rfl

theorem applyTrace_addrs_mono :
    ∀ (tr : List Action) (s : KState) (a : Addr), a ∈ s.addrs →
      a ∈ (applyTrace s tr).addrs := by
  intro tr
  induction tr with
  | nil => intro s a ha; exact ha
  | cons act tr ih =>
    intro s a ha
    rw [applyTrace_cons]
    refine ih _ a ?_
    cases act <;> simp [applyAction, ha]

theorem applyTrace_addrAdds_present :
    ∀ (tr : List Action) (s : KState) (a : Addr), a ∈ addrAddsOf tr →
      a ∈ (applyTrace s tr).addrs := by
  intro tr
  induction tr with
  | nil => intro s a ha; exact absurd ha (by simp [addrAddsOf])
  | cons act tr ih =>
    intro s a ha
    rw [applyTrace_cons]
    cases act with
    | addrAdd x =>
      rcases List.mem_cons.mp (by simpa [addrAddsOf_cons_addrAdd] using ha) with
        heq | hmem
      · subst heq
        exact applyTrace_addrs_mono tr _ a (by simp [applyAction])
      · exact ih _ a hmem
    | setMaster li vi =>
      exact ih _ a (by simpa [addrAddsOf_cons_setMaster] using ha)
    | routeQuery d t l =>
      exact ih _ a (by simpa [addrAddsOf] using ha)
    | sleep ms =>
      exact ih _ a (by simpa [addrAddsOf] using ha)
    | routeReplace r =>
      exact ih _ a (by simpa [addrAddsOf_cons_routeReplace] using ha)

theorem applyTrace_key_persists :
    ∀ (tr : List Action) (s : KState) (k : Option IPNet × Int),
      (∃ r, r ∈ s.routes ∧ routeKey r = k) →
      ∃ r, r ∈ (applyTrace s tr).routes ∧ routeKey r = k := by
  intro tr
  induction tr with
  | nil => intro s k hk; exact hk
  | cons act tr ih =>
    intro s k hk
    rw [applyTrace_cons]
    refine ih _ k ?_
    obtain ⟨r, hr, hkey⟩ := hk
    cases act with
    | setMaster li vi => exact ⟨r, hr, hkey⟩
    | addrAdd x => exact ⟨r, hr, hkey⟩
    | routeQuery d t l => exact ⟨r, hr, hkey⟩
    | sleep ms => exact ⟨r, hr, hkey⟩
    | routeReplace q =>
      by_cases hq : routeKey q = k
      · exact ⟨q, by simp [applyAction], hq⟩
      · refine ⟨r, ?_, hkey⟩
        simp only [applyAction]
        refine List.mem_append_left _ (List.mem_filter.mpr ⟨hr, ?_⟩)
        simp [hkey]
        intro hcontra
        exact hq (by rw [hcontra])

theorem applyTrace_replaces_present :
    ∀ (tr : List Action) (s : KState) (r : Route), r ∈ replacesOf tr →
      ∃ r', r' ∈ (applyTrace s tr).routes ∧ routeKey r' = routeKey r := by
  intro tr
  induction tr with
  | nil => intro s r hr; exact absurd hr (by simp [replacesOf])
  | cons act tr ih =>
    intro s r hr
    rw [applyTrace_cons]
    cases act with
    | routeReplace q =>
      rcases List.mem_cons.mp
          (by simpa [replacesOf_cons_routeReplace] using hr) with heq | hmem
      · subst heq
        exact applyTrace_key_persists tr _ _ ⟨r, by simp [applyAction], rfl⟩
      · exact ih _ r hmem
    | setMaster li vi =>
      exact ih _ r (by simpa [replacesOf_cons_setMaster] using hr)
    | addrAdd x =>
      exact ih _ r (by simpa [replacesOf_cons_addrAdd] using hr)
    | routeQuery d t l =>
      exact ih _ r (by simpa [replacesOf] using hr)
    | sleep ms =>
      exact ih _ r (by simpa [replacesOf] using hr)

theorem applyTrace_setMaster_head (s : KState) (li vi : Nat)
    (tl : List Action) (h : setMastersOf tl = []) :
    (applyTrace s (.setMaster li vi :: tl)).master = vi := by
  rw [applyTrace_cons, applyTrace_master_of_no_setMaster tl _ h]
  rfl

theorem replacesOf_map_routeReplace (f : Route → Route) :
    ∀ l : List Route,
      replacesOf (l.map (fun r => .routeReplace (f r))) = l.map f := by
  intro l
  induction l with
  | nil => rfl
  | cons r l ih =>
    simp only [List.map_cons, replacesOf_cons_routeReplace, ih]

/-- Membership in the route snapshot, characterised field by field. -/
theorem mem_snapRoutes (rs : List Route) (i : Link) (r : Route) :
    r ∈ snapRoutes rs i ↔
      (r ∈ rs ∧ r.linkIndex = i.attrs.index ∧ r.scope = SCOPE_UNIVERSE ∧
        r.src ≠ none) := by
  simp only [snapRoutes, routeListFiltered, routeMatches, List.mem_filter]
  constructor
  · rintro ⟨⟨hmem, hmatch⟩, hsrc⟩
    simp at hmatch hsrc
    exact ⟨hmem, hmatch.1, hmatch.2, hsrc⟩
  · rintro ⟨hmem, hli, hsc, hsrc⟩
    refine ⟨⟨hmem, by simp [hli, hsc]⟩, by simpa using hsrc⟩

/-! ## C4: precondition — the interface must have no master -/

/-- C4: when the interface already has a non-zero master index,
`addInterface` fails with an error naming the existing master (or, if the
master cannot be resolved, saying so) and performs no kernel mutation: the
trace is empty. -/
theorem addInterface_already_enslaved (env : NetEnv) (vrf : Vrf)
    (intf : String) (i : Link) (h1 : env.linkByName intf = .ok i)
    (h2 : i.attrs.masterIndex ≠ 0) :
    (addInterface env vrf intf).1 = [] ∧
    (∀ master, env.linkByIndex i.attrs.masterIndex = .ok master →
      addInterface env vrf intf =
        ([], .error ("interface " ++ intf ++ " has already a master set: " ++
          master.attrs.name))) ∧
    (∀ e, env.linkByIndex i.attrs.masterIndex = .error e →
      addInterface env vrf intf =
        ([], .error ("interface " ++ intf ++
          " has already a master set, could not retrieve the name: " ++ e))) := by
  have hb : (i.attrs.masterIndex != 0) = true := by simpa using h2
  refine ⟨?_, ?_, ?_⟩
  · cases hm : env.linkByIndex i.attrs.masterIndex with
    | error e => simp [addInterface, h1, hb, hm]
    | ok master => simp [addInterface, h1, hb, hm]
  · intro master hm
    simp [addInterface, h1, hb, hm]
  · intro e hm
    simp [addInterface, h1, hb, hm]

/-- An interface that is already enslaved to link index 9 (`vrf-old`). -/
def eth0Enslaved : Link := .device { name := "eth0", index := 3, masterIndex := 9 }

/-- An environment in which `eth0` already has master `vrf-old`. -/
def demoEnslavedEnv : NetEnv :=
  { demoNetEnv with
    linkByName := fun n =>
      if n == "eth0" then .ok eth0Enslaved else .error "Link not found"
    linkByIndex := fun ix =>
      if ix == 9 then
        .ok (.vrf { name := "vrf-old", index := 9, masterIndex := 0 } 7)
      else .error "no such index" }

/-- Witness for C4: enslaving already-enslaved `eth0` fails naming
`vrf-old` and mutates nothing. -/
theorem addInterface_already_enslaved_witness :
    addInterface demoEnslavedEnv demoVrf "eth0" =
      ([], .error "interface eth0 has already a master set: vrf-old") :=
  (addInterface_already_enslaved demoEnslavedEnv demoVrf "eth0" eth0Enslaved
    rfl (by decide)).2.1 _ rfl

/-! ## C1: the repair protocol for dropped global IPv6 addresses -/

/-- C1: for every global IPv6 address of the before snapshot that no
address of the after snapshot equals, `addInterface` re-adds it and then
polls for its host route in the VRF's table (first conjunct: on an all-ok
run the re-added addresses are exactly the missing ones, in order, and a
host-route query for each appears in the trace); when a re-add fails
(second conjunct) or a convergence wait fails (third conjunct) the
corresponding error is returned immediately: the earlier missing addresses
are the only ones re-added and no route is ever replayed. -/
theorem addInterface_restores_dropped (env : NetEnv) (vrf : Vrf)
    (intf : String) (i : Link) (ba : List Addr) (rs : List Route)
    (aa : List Addr)
    (h1 : env.linkByName intf = .ok i) (h2 : i.attrs.masterIndex = 0)
    (h3 : env.addrsBefore = .ok ba) (h4 : env.kernelRoutes = .ok rs)
    (h5 : env.setMasterResult = .ok ()) (h6 : env.addrsAfter = .ok aa) :
    ((∀ a ∈ missingAddrs (globals ba) (globals aa), repairOk env i vrf intf a) →
      addrAddsOf (addInterface env vrf intf).1 =
        missingAddrs (globals ba) (globals aa) ∧
      ∀ a ∈ missingAddrs (globals ba) (globals aa),
        (hostPrefix a, Int.ofNat vrf.table, i.attrs.index) ∈
          queriesOf (addInterface env vrf intf).1) ∧
    (∀ m1 toF m2 e,
      missingAddrs (globals ba) (globals aa) = m1 ++ toF :: m2 →
      (∀ a ∈ m1, repairOk env i vrf intf a) →
      env.addrAddResult toF = .error e →
      (addInterface env vrf intf).2 =
        .error ("could not restore address " ++ toF.render ++ " to " ++ intf ++
          " @ " ++ vrf.name ++ ": " ++ e) ∧
      addrAddsOf (addInterface env vrf intf).1 = m1 ∧
      replacesOf (addInterface env vrf intf).1 = []) ∧
    (∀ m1 toF m2 e,
      missingAddrs (globals ba) (globals aa) = m1 ++ toF :: m2 →
      (∀ a ∈ m1, repairOk env i vrf intf a) →
      env.addrAddResult toF = .ok () →
      (convergenceWait env i vrf intf toF).2 = .error e →
      (addInterface env vrf intf).2 = .error e ∧
      addrAddsOf (addInterface env vrf intf).1 = m1 ++ [toF] ∧
      replacesOf (addInterface env vrf intf).1 = []) := by
  have heq := addInterface_eq env vrf intf i ba rs aa h1 h2 h3 h4 h5 h6
  obtain ⟨t1, t2⟩ := restoreLoop_trace_actions env i vrf intf (globals aa)
    (globals ba)
  refine ⟨?_, ?_, ?_⟩
  · intro hsucc
    obtain ⟨r1, r2, r3, r4, r5⟩ := restoreLoop_ok env i vrf intf (globals aa)
      (globals ba) hsucc
    cases hres : restoreLoop env i vrf intf (globals aa) (globals ba) with
    | mk rtr rres =>
      rw [hres] at r1 r2 r5 heq
      dsimp only at r1 r2 r5
      rw [r1] at heq
      dsimp only at heq
      cases hrep : replayLoop env (Int.ofNat vrf.table) (snapRoutes rs i) with
      | mk ptr pres =>
        rw [hrep] at heq
        dsimp only at heq
        rw [heq]
        dsimp only
        rw [List.cons_append]
        constructor
        · rw [addrAddsOf_cons_setMaster, addrAddsOf_append, r2]
          have := (replayLoop_trace_actions env (Int.ofNat vrf.table)
            (snapRoutes rs i)).2
          rw [hrep] at this
          dsimp only at this
          rw [this, List.append_nil]
        · intro a ha
          rw [queriesOf_cons_setMaster, queriesOf_append]
          exact List.mem_append_left _ (r5 a ha)
  · intro m1 toF m2 e hsplit hm1 hf
    obtain ⟨f1, f2⟩ := restoreLoop_addFail env i vrf intf (globals aa)
      (globals ba) m1 toF m2 e hsplit hm1 hf
    cases hres : restoreLoop env i vrf intf (globals aa) (globals ba) with
    | mk rtr rres =>
      rw [hres] at f1 f2 t2 heq
      dsimp only at f1 f2 t2
      rw [f1] at heq
      dsimp only at heq
      rw [heq]
      dsimp only
      exact ⟨rfl, by rw [addrAddsOf_cons_setMaster, f2],
        by rw [replacesOf_cons_setMaster, t2]⟩
  · intro m1 toF m2 e hsplit hm1 hok hwf
    obtain ⟨f1, f2⟩ := restoreLoop_waitFail env i vrf intf (globals aa)
      (globals ba) m1 toF m2 e hsplit hm1 hok hwf
    cases hres : restoreLoop env i vrf intf (globals aa) (globals ba) with
    | mk rtr rres =>
      rw [hres] at f1 f2 t2 heq
      dsimp only at f1 f2 t2
      rw [f1] at heq
      dsimp only at heq
      rw [heq]
      dsimp only
      exact ⟨rfl, by rw [addrAddsOf_cons_setMaster, f2],
        by rw [replacesOf_cons_setMaster, t2]⟩

/-- Witness for C1: on the demo run the dropped global address `addr6` is
the one missing address, and it is exactly what gets re-added. -/
theorem addInterface_restores_dropped_witness :
    addrAddsOf (addInterface demoNetEnv demoVrf "eth1").1 = [addr6] := by
  have h := (addInterface_restores_dropped demoNetEnv demoVrf "eth1" eth1
    [addr6, addrLinkLocal] [rUniv, rLinkScope, rNoSrc, rOther] [addrLinkLocal]
    rfl rfl rfl rfl rfl rfl).1 (fun a _ => ⟨rfl, rfl⟩)
  rw [h.1]
  rfl

/-! ## C3: the route snapshot and its replay -/

/-- C3: `addInterface` snapshots exactly the kernel routes with the
interface's link index, universe scope and a non-nil source (first
conjunct); on a run whose repairs succeed it replays, in snapshot order,
each captured route with only its table field rewritten to the VRF's table
(second conjunct: the replaced routes are exactly the snapshot mapped
through the table rewrite, via install-or-replace actions), and the first
replace failure aborts the replay, leaving exactly the earlier routes
replayed (third conjunct). -/
theorem addInterface_replays_routes (env : NetEnv) (vrf : Vrf) (intf : String)
    (i : Link) (ba : List Addr) (rs : List Route) (aa : List Addr)
    (h1 : env.linkByName intf = .ok i) (h2 : i.attrs.masterIndex = 0)
    (h3 : env.addrsBefore = .ok ba) (h4 : env.kernelRoutes = .ok rs)
    (h5 : env.setMasterResult = .ok ()) (h6 : env.addrsAfter = .ok aa)
    (hrepair : ∀ a ∈ missingAddrs (globals ba) (globals aa),
      repairOk env i vrf intf a) :
    (∀ r, r ∈ snapRoutes rs i ↔
      (r ∈ rs ∧ r.linkIndex = i.attrs.index ∧ r.scope = SCOPE_UNIVERSE ∧
        r.src ≠ none)) ∧
    ((∀ r ∈ snapRoutes rs i,
        env.routeReplaceResult { r with table := Int.ofNat vrf.table } = .ok ()) →
      (addInterface env vrf intf).2 = .ok () ∧
      replacesOf (addInterface env vrf intf).1 =
        (snapRoutes rs i).map (fun r => { r with table := Int.ofNat vrf.table })) ∧
    (∀ s1 r0 s2 e, snapRoutes rs i = s1 ++ r0 :: s2 →
      (∀ r ∈ s1,
        env.routeReplaceResult { r with table := Int.ofNat vrf.table } = .ok ()) →
      env.routeReplaceResult { r0 with table := Int.ofNat vrf.table } = .error e →
      (addInterface env vrf intf).2 =
        .error ("could not add route '" ++
          Route.render { r0 with table := Int.ofNat vrf.table } ++ "': " ++ e) ∧
      replacesOf (addInterface env vrf intf).1 =
        s1.map (fun r => { r with table := Int.ofNat vrf.table })) := by
  have heq := addInterface_eq env vrf intf i ba rs aa h1 h2 h3 h4 h5 h6
  obtain ⟨r1, r2, r3, r4, r5⟩ := restoreLoop_ok env i vrf intf (globals aa)
    (globals ba) hrepair
  cases hres : restoreLoop env i vrf intf (globals aa) (globals ba) with
  | mk rtr rres =>
    rw [hres] at r1 r3 heq
    dsimp only at r1 r3
    rw [r1] at heq
    dsimp only at heq
    refine ⟨mem_snapRoutes rs i, ?_, ?_⟩
    · intro hall
      obtain ⟨p1, p2⟩ := replayLoop_ok env (Int.ofNat vrf.table)
        (snapRoutes rs i) hall
      cases hrep : replayLoop env (Int.ofNat vrf.table) (snapRoutes rs i) with
      | mk ptr pres =>
        rw [hrep] at p1 p2 heq
        dsimp only at p1 p2
        rw [heq]
        dsimp only
        refine ⟨p1, ?_⟩
        rw [List.cons_append, replacesOf_cons_setMaster, replacesOf_append,
          r3, p2, replacesOf_map_routeReplace]
        rfl
    · intro s1 r0 s2 e hsp hoks hf
      obtain ⟨p1, p2⟩ := replayLoop_fail env (Int.ofNat vrf.table)
        s1 r0 s2 e hoks hf
      rw [← hsp] at p1 p2
      cases hrep : replayLoop env (Int.ofNat vrf.table) (snapRoutes rs i) with
      | mk ptr pres =>
        rw [hrep] at p1 p2 heq
        dsimp only at p1 p2
        rw [heq]
        dsimp only
        refine ⟨p1, ?_⟩
        rw [List.cons_append, replacesOf_cons_setMaster, replacesOf_append,
          r3, p2, replacesOf_map_routeReplace]
        rfl

/-- Witness for C3: of the four kernel routes of the demo run, only the
universe-scoped sourced route of `eth1` is replayed, with table rewritten
to 2; the run succeeds. -/
theorem addInterface_replays_routes_witness :
    (addInterface demoNetEnv demoVrf "eth1").2 = .ok () ∧
    replacesOf (addInterface demoNetEnv demoVrf "eth1").1 =
      [{ rUniv with table := (2 : Int) }] := by
  have h := (addInterface_replays_routes demoNetEnv demoVrf "eth1" eth1
    [addr6, addrLinkLocal] [rUniv, rLinkScope, rNoSrc, rOther] [addrLinkLocal]
    rfl rfl rfl rfl rfl rfl (fun a _ => ⟨rfl, rfl⟩)).2.1 (fun r _ => rfl)
  refine ⟨h.1, ?_⟩
  rw [h.2]
  rfl

/-! ## C10: no rollback after a post-enslavement failure -/

/-- C10: when every step up to and including the master-set succeeded and
`addInterface` then fails at any later step, the trace starts with the
master-set and contains no further master change, so interpreting it
against any kernel state leaves the interface enslaved to the VRF, every
re-added address still present, and every replayed route still installed
(by destination/table key): nothing performed before the failing step is
rolled back. -/
theorem addInterface_no_rollback (env : NetEnv) (vrf : Vrf) (intf : String)
    (i : Link) (ba : List Addr) (rs : List Route)
    (h1 : env.linkByName intf = .ok i) (h2 : i.attrs.masterIndex = 0)
    (h3 : env.addrsBefore = .ok ba) (h4 : env.kernelRoutes = .ok rs)
    (h5 : env.setMasterResult = .ok ())
    (herr : ∃ e, (addInterface env vrf intf).2 = .error e) :
    (∃ tl, (addInterface env vrf intf).1 =
      .setMaster i.attrs.index vrf.index :: tl) ∧
    ∀ s : KState,
      (applyTrace s (addInterface env vrf intf).1).master = vrf.index ∧
      (∀ a ∈ addrAddsOf (addInterface env vrf intf).1,
        a ∈ (applyTrace s (addInterface env vrf intf).1).addrs) ∧
      (∀ r ∈ replacesOf (addInterface env vrf intf).1,
        ∃ r', r' ∈ (applyTrace s (addInterface env vrf intf).1).routes ∧
          routeKey r' = routeKey r) := by
  have hshape : ∃ tl, (addInterface env vrf intf).1 =
      .setMaster i.attrs.index vrf.index :: tl ∧ setMastersOf tl = [] := by
    cases haa : env.addrsAfter with
    | error e0 =>
      rw [addInterface_afterSnapshot_fail env vrf intf i ba rs e0 h1 h2 h3 h4
        h5 haa]
      exact ⟨[], rfl, rfl⟩
    | ok aa =>
      have heq := addInterface_eq env vrf intf i ba rs aa h1 h2 h3 h4 h5 haa
      obtain ⟨t1, t2⟩ := restoreLoop_trace_actions env i vrf intf (globals aa)
        (globals ba)
      cases hres : restoreLoop env i vrf intf (globals aa) (globals ba) with
      | mk rtr rres =>
        rw [hres] at t1 t2 heq
        dsimp only at t1 t2
        cases rres with
        | error e =>
          dsimp only at heq
          rw [heq]
          exact ⟨rtr, rfl, t1⟩
        | ok u =>
          dsimp only at heq
          cases hrep : replayLoop env (Int.ofNat vrf.table) (snapRoutes rs i) with
          | mk ptr pres =>
            rw [hrep] at heq
            dsimp only at heq
            rw [heq]
            dsimp only
            refine ⟨rtr ++ ptr, List.cons_append _ _ _, ?_⟩
            rw [setMastersOf_append, t1]
            have hp := (replayLoop_trace_actions env (Int.ofNat vrf.table)
              (snapRoutes rs i)).1
            rw [hrep] at hp
            dsimp only at hp
            rw [hp]
            rfl
  obtain ⟨tl, htr, hsm⟩ := hshape
  refine ⟨⟨tl, htr⟩, ?_⟩
  intro s
  refine ⟨?_, ?_, ?_⟩
  · rw [htr]
    exact applyTrace_setMaster_head s _ _ tl hsm
  · intro a ha
    exact applyTrace_addrAdds_present _ s a ha
  · intro r hr
    exact applyTrace_replaces_present _ s r hr

/-- A run identical to the demo run except that every route replace is
rejected by the kernel, so `addInterface` fails after the master-set. -/
def demoFailEnv : NetEnv :=
  { demoNetEnv with routeReplaceResult := fun _ => .error "permission denied" }

/-- Witness for C10: on the failing demo run the interface still ends up
enslaved to the VRF (master index 9) in the interpreted final state. -/
theorem addInterface_no_rollback_witness :
    (applyTrace { master := 0, addrs := [], routes := [] }
      (addInterface demoFailEnv demoVrf "eth1").1).master = demoVrf.index := by
  have h := addInterface_no_rollback demoFailEnv demoVrf "eth1" eth1
    [addr6, addrLinkLocal] [rUniv, rLinkScope, rNoSrc, rOther]
    rfl rfl rfl rfl rfl ⟨_, rfl⟩
  exact (h.2 _).1

end VRFPlugin
